import Mathlib

/-!
Verification development for the ChainCycles client-side session and
synchronization layer (frontend/src/lib/linera/lineraAdapter.ts,
frontend/src/lib/linera/dynamicSigner.ts, frontend/src/lib/gameApi.ts,
frontend/src/stores/lineraStore.ts).

Each definition is a shallow embedding of the corresponding TypeScript
function.  Opaque WASM handles (client, wallet, faucet objects) are elided;
the observable data they carry (chain id, application id) is kept.
-/

namespace ChainCycles

/-! ## localStorage model

`localStorage` is modelled as an association list of string keys to string
values; `setItem` overwrites any previous binding of the key. -/

abbrev Storage : Type := List (String × String)

deriving instance DecidableEq for Except

def Storage.setItem (s : Storage) (k v : String) : Storage :=
  (k, v) :: (List.filter (fun kv => kv.1 ≠ k) s)

def Storage.removeItem (s : Storage) (k : String) : Storage :=
  List.filter (fun kv => kv.1 ≠ k) s

def Storage.getItem (s : Storage) (k : String) : Option String :=
  (List.find? (fun kv => kv.1 = k) s).map (fun kv => kv.2)

/-- JavaScript's `key.startsWith(p)`, written over the underlying
character lists so that it evaluates inside the kernel. -/
def strStartsWith (k p : String) : Bool :=
  List.isPrefixOf p.data k.data

/-! ## Adapter data model (lineraAdapter.ts)

`LineraConnection` keeps the observable fields of the source interface of
the same name (the `client`, `wallet` and `faucet` WASM handles are
opaque and elided).  `Application` stands for the remote application
handle returned by `chain.application(applicationId)`; its identity is
determined by the chain it was resolved on and the application id. -/

structure LineraConnection where
  chainId : String
  address : String
  autoSignerAddress : String
deriving DecidableEq, Repr

structure Application where
  chainId : String
  applicationId : String
deriving DecidableEq, Repr

structure ApplicationConnection where
  application : Application
  applicationId : String
deriving DecidableEq, Repr

structure ConnectionState where
  isConnected : Bool
  chainId : Option String
  userAddress : Option String
  autoSignerAddress : Option String
deriving DecidableEq, Repr

/-- The mutable fields of the `LineraAdapterClass` singleton that the data
operations touch (the in-flight `connectPromise` is modelled separately in
the single-flight machine below). -/
structure Adapter where
  connection : Option LineraConnection
  appConnection : Option ApplicationConnection
  storage : Storage
deriving DecidableEq, Repr

/-- `LineraAdapterClass.getState` (lineraAdapter.ts lines 112-119). -/
def Adapter.getState (st : Adapter) : ConnectionState :=
  { isConnected := st.connection.isSome
    chainId := st.connection.map (fun c => c.chainId)
    userAddress := st.connection.map (fun c => c.address)
    autoSignerAddress := st.connection.map (fun c => c.autoSignerAddress) }

/-- State effect of a successful `performConnect` run (lineraAdapter.ts
lines 246-258): store the connection and persist the chain id, the
resolved user address and the auto-signer address in localStorage.
`appConnection` is not written. -/
def Adapter.performConnectSuccess (st : Adapter)
    (chainId userAddress autoSignerAddress : String) : Adapter :=
  { st with
    connection := some
      { chainId := chainId
        address := userAddress
        autoSignerAddress := autoSignerAddress }
    storage :=
      ((st.storage.setItem "chaincycles_chain_id" chainId).setItem
          "chaincycles_user_address" userAddress).setItem
        "chaincycles_auto_signer" autoSignerAddress }

/-- State effect of a failed `performConnect` run (lineraAdapter.ts lines
266-271): the connection is reset to null and the error is rethrown;
nothing else is touched. -/
def Adapter.performConnectFailure (st : Adapter) : Adapter :=
  { st with connection := none }

/-- `LineraAdapterClass.disconnect` (lineraAdapter.ts lines 378-393):
null out connection and appConnection, remove the chain-id and
user-address keys, and remove every key starting with
`chaincycles_mnemonic_`. -/
def Adapter.disconnect (st : Adapter) : Adapter :=
  { connection := none
    appConnection := none
    storage :=
      List.filter (fun kv => ¬ strStartsWith kv.1 "chaincycles_mnemonic_")
        ((st.storage.removeItem "chaincycles_chain_id").removeItem
          "chaincycles_user_address") }

/-- `LineraAdapterClass.connectApplication` (lineraAdapter.ts lines
348-373).  Returns the application connection used plus the updated
adapter state. -/
def Adapter.connectApplication (st : Adapter) (applicationId : String) :
    Except String (ApplicationConnection × Adapter) :=
  match st.connection with
  | none => .error "Must connect wallet before connecting to application"
  | some conn =>
    match st.appConnection with
    | some ac =>
      if ac.applicationId = applicationId then .ok (ac, st)
      else if applicationId = "" then .error "Application ID is not configured"
      else
        let app : Application := { chainId := conn.chainId, applicationId := applicationId }
        .ok ({ application := app, applicationId := applicationId },
          { st with appConnection := some { application := app, applicationId := applicationId } })
    | none =>
      if applicationId = "" then .error "Application ID is not configured"
      else
        let app : Application := { chainId := conn.chainId, applicationId := applicationId }
        .ok ({ application := app, applicationId := applicationId },
          { st with appConnection := some { application := app, applicationId := applicationId } })

/-- The application handle a `query`/`mutate` call goes through
(lineraAdapter.ts lines 436-453): require a connection, bind the
application lazily if no cached binding exists, then use the cached
binding's application. -/
def Adapter.queryBinding (st : Adapter) (defaultApplicationId : String) :
    Except String (Application × Adapter) :=
  match st.connection with
  | none => .error "Must connect wallet before querying"
  | some _ =>
    match st.appConnection with
    | some ac => .ok (ac.application, st)
    | none =>
      (st.connectApplication defaultApplicationId).map
        (fun acst => (acst.1.application, acst.2))

/-! ## GraphQL response envelope handling (query / mutate)

The parsed response is `JSON{data?, errors?}`.  `data` is kept opaque as
an optional serialized string.  `errors`, when present, is an array of
objects with an optional `message` field.  JavaScript truthiness is what
the source tests: `if (parsed.errors)` is taken whenever the field holds
an array, including an empty one; `parsed.errors[0]?.message || fallback`
falls back when the array is empty, the first element has no message, or
the message is the empty string. -/

structure GqlEnvelope where
  data : Option String
  errors : Option (List (Option String))
deriving DecidableEq, Repr

/-- `parsed.errors[0]?.message || fallback` (lineraAdapter.ts lines 462,
502). -/
def firstErrorMessage (errs : List (Option String)) (fallback : String) : String :=
  match errs.head? with
  | some (some m) => if m = "" then fallback else m
  | _ => fallback

/-- Error-checking and result extraction of `LineraAdapterClass.query`
(lineraAdapter.ts lines 453-468). -/
def queryResult (env : GqlEnvelope) : Except String (Option String) :=
  match env.errors with
  | some errs => .error (firstErrorMessage errs "Query failed")
  | none => .ok env.data

/-- One confirmation attempt of the post-mutation loop: a 1000 ms sleep
followed by a chain resynchronization whose outcome (`chain()` plus the
optional `processInbox()`) is caught and swallowed (lineraAdapter.ts
lines 512-527).  The event records the sleep length and the swallowed
outcome. -/
structure ConfirmAttempt where
  sleepMs : Nat
  syncOutcome : Except String Unit
deriving DecidableEq, Repr

/-- The block-confirmation loop `for (let i = 0; i < 3; i++)`
(lineraAdapter.ts lines 512-527), given the environment-chosen outcome of
each attempt's sync. -/
def blockConfirmationWait (syncs : Nat → Except String Unit) : List ConfirmAttempt :=
  (List.range 3).map (fun i => { sleepMs := 1000, syncOutcome := syncs i })

/-- `LineraAdapterClass.mutate` after the mutation response has been
parsed (lineraAdapter.ts lines 496-531): error-check the envelope; on an
errors field reject before any confirmation attempt; otherwise run the
confirmation loop and resolve with `parsed.data` regardless of the
attempts' outcomes.  Returns the call result and the list of confirmation
attempts performed. -/
def mutateResult (env : GqlEnvelope) (syncs : Nat → Except String Unit) :
    Except String (Option String) × List ConfirmAttempt :=
  match env.errors with
  | some errs => (.error (firstErrorMessage errs "Mutation failed"), [])
  | none => (.ok env.data, blockConfirmationWait syncs)

end ChainCycles

namespace ChainCycles

/-! ## Theorems for C2, C3, C6 -/

set_option maxRecDepth 16000

/-- C2 counterexample: an envelope whose `errors` field is present but an
*empty* array.  The claim says such a call returns the envelope's `data`;
the code's truthiness test `if (parsed.errors)` fires on an empty array,
so `query` rejects with the fallback message instead. -/
theorem c2_empty_errors_array_rejects :
    (GqlEnvelope.mk (some "payload") (some [])).errors = some []
      ∧ queryResult (GqlEnvelope.mk (some "payload") (some [])) = .error "Query failed"
      ∧ queryResult (GqlEnvelope.mk (some "payload") (some []))
          ≠ .ok (GqlEnvelope.mk (some "payload") (some [])).data := by
  refine ⟨rfl, rfl, ?_⟩
  intro h
  exact Except.noConfusion h

/-- C2 (amended): `query` and `mutate` reject exactly when the parsed
envelope's `errors` field is present — even as an empty array — carrying
the first error's message when one is present and non-empty and a
fixed fallback otherwise, and a rejecting `mutate` performs no
confirmation attempt; when `errors` is absent the calls return the
envelope's `data`. -/
theorem c2_error_envelope_handling (env : GqlEnvelope)
    (syncs : Nat → Except String Unit) :
    (∀ errs, env.errors = some errs →
        queryResult env = .error (firstErrorMessage errs "Query failed")
          ∧ (mutateResult env syncs).1 = .error (firstErrorMessage errs "Mutation failed")
          ∧ (mutateResult env syncs).2 = [])
      ∧ (env.errors = none →
        queryResult env = .ok env.data ∧ (mutateResult env syncs).1 = .ok env.data) := by
  constructor
  · intro errs h
    simp [queryResult, mutateResult, h]
  · intro h
    simp [queryResult, mutateResult, h]

/-- C2 witness: concrete envelopes exercising both branches of
`c2_error_envelope_handling`. -/
theorem c2_error_envelope_handling_witness :
    (queryResult (GqlEnvelope.mk (some "d") (some [some "boom"])) = .error "boom"
        ∧ (mutateResult (GqlEnvelope.mk (some "d") (some [some "boom"])) (fun _ => .ok ())).1
            = .error "boom"
        ∧ (mutateResult (GqlEnvelope.mk (some "d") (some [some "boom"])) (fun _ => .ok ())).2 = [])
      ∧ (queryResult (GqlEnvelope.mk (some "d") none) = .ok (some "d")
        ∧ (mutateResult (GqlEnvelope.mk (some "d") none) (fun _ => .ok ())).1 = .ok (some "d")) := by
  refine ⟨?_, ?_⟩
  · exact (c2_error_envelope_handling (GqlEnvelope.mk (some "d") (some [some "boom"]))
      (fun _ => .ok ())).1 [some "boom"] rfl
  · exact (c2_error_envelope_handling (GqlEnvelope.mk (some "d") none)
      (fun _ => .ok ())).2 rfl

/-- C3: the code contradicts its own comment "Clear all localStorage
items" — after a successful connect (which persists the chain id, the
user address and the auto-signer address), `disconnect()` nulls the
session and binding and removes the chain-id and user-address keys, but
the `chaincycles_auto_signer` key written by `performConnect` survives. -/
theorem c3_disconnect_leaves_auto_signer_key :
    (((Adapter.mk none none []).performConnectSuccess "chain-1" "0xabc" "0xauto").disconnect).connection = none
      ∧ (((Adapter.mk none none []).performConnectSuccess "chain-1" "0xabc" "0xauto").disconnect).appConnection = none
      ∧ Storage.getItem (((Adapter.mk none none []).performConnectSuccess "chain-1" "0xabc" "0xauto").disconnect).storage
          "chaincycles_chain_id" = none
      ∧ Storage.getItem (((Adapter.mk none none []).performConnectSuccess "chain-1" "0xabc" "0xauto").disconnect).storage
          "chaincycles_user_address" = none
      ∧ Storage.getItem (((Adapter.mk none none []).performConnectSuccess "chain-1" "0xabc" "0xauto").disconnect).storage
          "chaincycles_auto_signer" = some "0xauto" := by
  refine ⟨rfl, rfl, by decide, by decide, by decide⟩

/-- C6: once a mutation response passes error-checking, exactly three
confirmation attempts run, each a 1000 ms sleep followed by a chain
resynchronization; every attempt's failure is swallowed, and `mutate`
resolves with the mutation's `data` regardless of the attempts'
outcomes. -/
theorem c6_confirmation_best_effort (env : GqlEnvelope)
    (syncs : Nat → Except String Unit) (h : env.errors = none) :
    (mutateResult env syncs).1 = .ok env.data
      ∧ (mutateResult env syncs).2 =
        [⟨1000, syncs 0⟩, ⟨1000, syncs 1⟩, ⟨1000, syncs 2⟩] := by
  simp [mutateResult, h, blockConfirmationWait, List.range_succ]

/-- C6 witness: a concrete envelope whose three confirmation attempts all
fail yet `mutate` resolves with the data. -/
theorem c6_confirmation_best_effort_witness :
    (mutateResult (GqlEnvelope.mk (some "d") none) (fun _ => .error "sync down")).1
        = .ok (some "d")
      ∧ (mutateResult (GqlEnvelope.mk (some "d") none) (fun _ => .error "sync down")).2 =
        [⟨1000, .error "sync down"⟩, ⟨1000, .error "sync down"⟩, ⟨1000, .error "sync down"⟩] :=
  c6_confirmation_best_effort (GqlEnvelope.mk (some "d") none)
    (fun _ => .error "sync down") rfl

end ChainCycles

namespace ChainCycles

/-! ## SyncPoller (gameApi.ts, `pollRoomUpdates`, lines 581-631)

The loop state mirrors the closure variables `currentInterval`,
`lastRoom`, `running`, `pollCount`.  Fetched snapshots are the
`JSON.stringify` serializations the source compares (`null` serializing
to the string "null"); a failed fetch is an `Except.error`.  Intervals
are modelled as rationals; the arithmetic the source performs on them
(multiplication by 1.5 starting from integral bases, `Math.min`) is exact
in IEEE doubles for the values involved. -/

structure PollCfg where
  interval : ℚ
  maxInterval : ℚ
  maxPolls : ℕ
deriving DecidableEq, Repr

structure PollSt where
  currentInterval : ℚ
  lastRoom : Option String
  running : Bool
  pollCount : ℕ
deriving DecidableEq, Repr

/-- The fetch-result processing of one iteration (gameApi.ts lines
602-618): on error, nothing changes; on a changed snapshot, remember it,
reset the delay to the base interval and fire the callback; on an
unchanged snapshot, grow the delay by 1.5 capped at `maxInterval`.
Returns (new delay, new fingerprint, callback fired?). -/
def pollBody (cfg : PollCfg) (currentInterval : ℚ) (lastRoom : Option String)
    (fetch : Except String String) : ℚ × Option String × Bool :=
  match fetch with
  | .error _ => (currentInterval, lastRoom, false)
  | .ok roomStr =>
    if some roomStr ≠ lastRoom then
      (cfg.interval, some roomStr, true)
    else
      (min (currentInterval * 1.5) cfg.maxInterval, lastRoom, false)

/-- One full iteration of `poll` (gameApi.ts lines 592-623): the
cancellation flag is checked at the head, then the iteration counter and
`maxPolls` bound, then the fetch result is processed. -/
def pollIter (cfg : PollCfg) (s : PollSt) (fetch : Except String String) :
    PollSt × Bool :=
  if ¬ s.running then (s, false)
  else
    let c := s.pollCount + 1
    if c > cfg.maxPolls then
      ({ s with pollCount := c, running := false }, false)
    else
      let b := pollBody cfg s.currentInterval s.lastRoom fetch
      ({ currentInterval := b.1, lastRoom := b.2.1, running := s.running, pollCount := c },
        b.2.2)

/-- Sequential run of the poll loop over a list of fetch results
(the loop is strictly sequential: fetch, compare, reschedule).  Returns
the final state and, per iteration, whether the callback fired and the
delay scheduled for the next iteration. -/
def pollRun (cfg : PollCfg) (s : PollSt) :
    List (Except String String) → PollSt × List (Bool × ℚ)
  | [] => (s, [])
  | f :: fs =>
    let step := pollIter cfg s f
    let rest := pollRun cfg step.1 fs
    (rest.1, (step.2, step.1.currentInterval) :: rest.2)

/-- The initial poll state built by `pollRoomUpdates` (gameApi.ts lines
587-590). -/
def pollInit (cfg : PollCfg) : PollSt :=
  { currentInterval := cfg.interval, lastRoom := none, running := true, pollCount := 0 }

/-! ### Event-level model of the self-rescheduling loop (for C7)

`poll` is re-entered by `setTimeout`; the cancel function returned by
`pollRoomUpdates` flips `running` at an arbitrary point.  The phases of
the loop: `idle` (no iteration pending or running), `scheduled` (a timer
for the next iteration is queued — also the state right after
`pollRoomUpdates` invokes `poll()` directly), `fetching` (an iteration
has passed the head checks and its `getRoomSynced()` is in flight). -/

inductive LoopPhase
  | idle
  | scheduled
  | fetching
deriving DecidableEq, Repr

structure LoopState where
  running : Bool
  phase : LoopPhase
  currentInterval : ℚ
  lastRoom : Option String
  pollCount : ℕ
deriving DecidableEq, Repr

inductive PollEvent
  | timerFire
  | fetchReturn (result : Except String String)
  | cancel
deriving DecidableEq, Repr

/-- Small-step semantics of the loop.  `timerFire`: a queued timer (or
the initial direct call) enters `poll`, which returns at once if
`running` is false, stops if `maxPolls` is exceeded, and otherwise starts
the fetch.  `fetchReturn`: the in-flight fetch settles, its result is
processed by `pollBody`, and the loop reschedules only if `running` is
still true.  `cancel`: the cancel function flips `running`
(gameApi.ts lines 628-630).  Returns the new state and whether the
callback fired. -/
def loopStep (cfg : PollCfg) (s : LoopState) : PollEvent → LoopState × Bool
  | .timerFire =>
    match s.phase with
    | .scheduled =>
      if ¬ s.running then ({ s with phase := .idle }, false)
      else
        let c := s.pollCount + 1
        if c > cfg.maxPolls then
          ({ s with pollCount := c, running := false, phase := .idle }, false)
        else ({ s with pollCount := c, phase := .fetching }, false)
    | _ => (s, false)
  | .fetchReturn r =>
    match s.phase with
    | .fetching =>
      let b := pollBody cfg s.currentInterval s.lastRoom r
      let s' : LoopState :=
        { s with currentInterval := b.1, lastRoom := b.2.1 }
      if s'.running then ({ s' with phase := .scheduled }, b.2.2)
      else ({ s' with phase := .idle }, b.2.2)
    | _ => (s, false)
  | .cancel => ({ s with running := false }, false)

/-- Run of the event-level loop over an event list; counts callback
firings. -/
def loopRun (cfg : PollCfg) (s : LoopState) : List PollEvent → LoopState × ℕ
  | [] => (s, 0)
  | e :: es =>
    let st := loopStep cfg s e
    let rest := loopRun cfg st.1 es
    (rest.1, (if st.2 then 1 else 0) + rest.2)

/-- How many more callback firings an in-flight iteration can still
contribute. -/
def phaseBudget : LoopPhase → ℕ
  | .fetching => 1
  | _ => 0

end ChainCycles

namespace ChainCycles

/-! ## Theorems for C4, C7 -/

/-- Composing two capped backoff steps: growing an already-capped delay
once more by 1.5 and capping again is the same as capping `b * 1.5 ^ 2`
directly. -/
lemma backoff_min_step (b M : ℚ) (hM : 0 ≤ M) :
    min (min (b * 1.5) M * 1.5) M = min (b * 1.5 ^ 2) M := by
  rcases le_or_lt (b * 1.5) M with h | h
  · rw [min_eq_left h]
    have hb : b * 1.5 * 1.5 = b * 1.5 ^ 2 := by ring
    rw [hb]
  · rw [min_eq_right h.le, min_eq_right (by nlinarith), min_eq_right (by nlinarith)]

/-- C4: over the fetched-snapshot sequence `[A, A, A, B]` the callback
fires exactly on the initial fetch and on the `A→B` change; the delays
scheduled after the two unchanged fetches are `base×1.5` and `base×1.5²`
capped at `maxInterval`, and each changed fetch resets the delay to the
base interval. -/
theorem c4_poll_snapshot_sequence (b M : ℚ) (mp : ℕ) (A B : String)
    (hAB : A ≠ B) (hM : 0 ≤ M) (hmp : 4 ≤ mp) :
    (pollRun ⟨b, M, mp⟩ (pollInit ⟨b, M, mp⟩) [.ok A, .ok A, .ok A, .ok B]).2 =
      [(true, b), (false, min (b * 1.5) M), (false, min (b * 1.5 ^ 2) M), (true, b)] := by
  have h1 : ¬ (0 + 1 > mp) := by omega
  have h2 : ¬ (0 + 1 + 1 > mp) := by omega
  have h3 : ¬ (0 + 1 + 1 + 1 > mp) := by omega
  have h4 : ¬ (0 + 1 + 1 + 1 + 1 > mp) := by omega
  have hBA : B ≠ A := Ne.symm hAB
  simp [pollRun, pollIter, pollBody, pollInit, h1, h2, h3, h4, hBA,
    backoff_min_step b M hM]

/-- C4 witness: the default configuration (base 2000 ms, cap 5000 ms, 100
polls) over concrete snapshots "a" and "b". -/
theorem c4_poll_snapshot_sequence_witness :
    (pollRun ⟨2000, 5000, 100⟩ (pollInit ⟨2000, 5000, 100⟩)
        [.ok "a", .ok "a", .ok "a", .ok "b"]).2 =
      [(true, 2000), (false, 3000), (false, 4500), (true, 2000)] := by
  have h := c4_poll_snapshot_sequence 2000 5000 100 "a" "b"
    (by decide) (by norm_num) (by norm_num)
  rw [h]
  norm_num

/-- After cancellation, one event step keeps the flag down and spends the
callback budget: a firing is only possible while an iteration is
mid-fetch, and no step re-enters the fetching phase. -/
lemma loopStep_cancelled (cfg : PollCfg) (s : LoopState) (e : PollEvent)
    (h : s.running = false) :
    (loopStep cfg s e).1.running = false
      ∧ (if (loopStep cfg s e).2 then 1 else 0)
          + phaseBudget (loopStep cfg s e).1.phase ≤ phaseBudget s.phase := by
  cases e with
  | timerFire =>
    cases hp : s.phase <;> simp [loopStep, hp, h, phaseBudget]
  | fetchReturn r =>
    cases hp : s.phase with
    | idle => simp [loopStep, hp, h, phaseBudget]
    | scheduled => simp [loopStep, hp, h, phaseBudget]
    | fetching =>
      simp [loopStep, hp, h, phaseBudget]
      split <;> simp
  | cancel =>
    cases hp : s.phase <;> simp [loopStep, hp, h, phaseBudget]

/-- Once the cancellation flag is down it stays down, and the whole
remaining run fires at most the budget of the phase it started in. -/
lemma loopRun_cancelled (cfg : PollCfg) (tr : List PollEvent) (s : LoopState)
    (h : s.running = false) :
    (loopRun cfg s tr).1.running = false
      ∧ (loopRun cfg s tr).2 + phaseBudget (loopRun cfg s tr).1.phase
          ≤ phaseBudget s.phase := by
  induction tr generalizing s with
  | nil => simpa [loopRun] using h
  | cons e es ih =>
    obtain ⟨h1, h2⟩ := loopStep_cancelled cfg s e h
    obtain ⟨ih1, ih2⟩ := ih (loopStep cfg s e).1 h1
    refine ⟨by simpa [loopRun] using ih1, ?_⟩
    simp only [loopRun]
    cases hf : (loopStep cfg s e).2 <;> simp only [hf] at h2 ⊢ <;> simp at h2 ⊢ <;> omega

/-- C7: from the moment the cancel function runs, the loop can never fire
the callback more than once more, the one possible firing coming only
from an iteration whose fetch was already in flight (`phaseBudget
.fetching = 1`; any other phase gives budget 0 and hence no further
firing), and the remaining run can never re-enter the fetching phase it
did not already occupy — no further iteration is scheduled. -/
theorem c7_cancel_stops_polling (cfg : PollCfg) (s : LoopState) (tr : List PollEvent) :
    (loopRun cfg s (.cancel :: tr)).1.running = false
      ∧ (loopRun cfg s (.cancel :: tr)).2 ≤ phaseBudget s.phase
      ∧ (loopRun cfg s (.cancel :: tr)).2
            + phaseBudget (loopRun cfg s (.cancel :: tr)).1.phase
          ≤ phaseBudget s.phase := by
  have hstep : loopStep cfg s .cancel = ({ s with running := false }, false) := rfl
  obtain ⟨h1, h2⟩ := loopRun_cancelled cfg tr { s with running := false } rfl
  have hb : phaseBudget ({ s with running := false } : LoopState).phase
      = phaseBudget s.phase := rfl
  rw [hb] at h2
  refine ⟨?_, ?_, ?_⟩
  · simpa [loopRun, hstep] using h1
  · simp only [loopRun, hstep]
    simp only [Bool.false_eq_true, if_false]
    omega
  · simp only [loopRun, hstep]
    simp only [Bool.false_eq_true, if_false]
    omega

end ChainCycles

namespace ChainCycles

/-! ## GameSessionStore (lineraStore.ts, `useGameStore`)

The store state keeps the fields the four room operations touch.  Room
snapshots stay opaque (serialized strings).  Each operation takes the
outcome of its underlying remote call(s) as an explicit argument and
returns the new store state together with the promise outcome the caller
observes. -/

structure GameState where
  room : Option String
  isLoading : Bool
  error : Option String
  pollActive : Bool
deriving DecidableEq, Repr

/-- `useGameStore.createNewRoom` (lineraStore.ts lines 215-229):
`mutate` create then a plain `getRoom` read; any error sets the error
message, clears loading and is rethrown. -/
def createNewRoom (s : GameState) (mutRes : Except String Unit)
    (hostChainId : String) (roomRes : Except String (Option String)) :
    GameState × Except String String :=
  let s1 : GameState := { s with isLoading := true, error := none }
  match mutRes with
  | .error e => ({ s1 with isLoading := false, error := some e }, .error e)
  | .ok _ =>
    match roomRes with
    | .error e => ({ s1 with isLoading := false, error := some e }, .error e)
    | .ok room => ({ s1 with room := room, isLoading := false }, .ok hostChainId)

/-- `useGameStore.joinExistingRoom` (lineraStore.ts lines 231-245):
`mutate` join, then start polling; any error sets the error message and
is rethrown. -/
def joinExistingRoom (s : GameState) (mutRes : Except String Unit) :
    GameState × Except String Unit :=
  let s1 : GameState := { s with isLoading := true, error := none }
  match mutRes with
  | .error e => ({ s1 with isLoading := false, error := some e }, .error e)
  | .ok _ => ({ s1 with pollActive := true, isLoading := false }, .ok ())

/-- `useGameStore.leaveCurrentRoom` (lineraStore.ts lines 247-259):
stop polling, `mutate` leave, clear the room; the catch block records the
error message but — unlike the other operations — does **not** rethrow,
so the returned promise resolves either way. -/
def leaveCurrentRoom (s : GameState) (mutRes : Except String Unit) :
    GameState × Except String Unit :=
  let s1 : GameState := { s with isLoading := true, error := none }
  let s2 : GameState := { s1 with pollActive := false }
  match mutRes with
  | .error e => ({ s2 with isLoading := false, error := some e }, .ok ())
  | .ok _ => ({ s2 with room := none, isLoading := false }, .ok ())

/-- `useGameStore.submitMove` (lineraStore.ts lines 261-275): `mutate`
the move (errors recorded and rethrown), then `syncRoom`, which catches
its own read errors (lineraStore.ts lines 297-304). -/
def submitMove (s : GameState) (mutRes : Except String Unit)
    (syncRes : Except String (Option String)) :
    GameState × Except String Unit :=
  let s1 : GameState := { s with isLoading := true, error := none }
  match mutRes with
  | .error e => ({ s1 with isLoading := false, error := some e }, .error e)
  | .ok _ =>
    let s2 : GameState :=
      match syncRes with
      | .ok room => { s1 with room := room }
      | .error _ => s1
    ({ s2 with isLoading := false }, .ok ())

/-! ## DynamicSigner (dynamicSigner.ts)

The wallet is its address string plus its `signMessage` behaviour.  The
signer's one mutable field, `cachedAddress`, is threaded explicitly.
JavaScript's `toLowerCase` is modelled character-wise over the underlying
list so it evaluates in the kernel. -/

structure DynamicWallet where
  addr : String
  signMessage : String → Except String String

/-- JavaScript's `s.toLowerCase()` for the ASCII identifiers involved. -/
def strToLower (s : String) : String :=
  String.mk (s.data.map Char.toLower)

/-- `DynamicSigner.address` (dynamicSigner.ts lines 44-56): return the
cached address if present, else fail on an absent/empty wallet address,
else cache and return the lowercased wallet address. -/
def DynamicSigner.address (w : DynamicWallet) (cached : Option String) :
    Except String (String × Option String) :=
  match cached with
  | some a => .ok (a, some a)
  | none =>
    if w.addr = "" then .error "Dynamic wallet has no address"
    else .ok (strToLower w.addr, some (strToLower w.addr))

/-- Hex digit characters as produced by JavaScript's
`b.toString(16)` (lowercase). -/
def hexDigit (n : Nat) : Char :=
  if n < 10 then Char.ofNat (48 + n) else Char.ofNat (87 + n)

/-- `b.toString(16).padStart(2, '0')` for a byte value. -/
def byteToHex (b : Nat) : String :=
  String.mk [hexDigit (b / 16), hexDigit (b % 16)]

/-- `uint8ArrayToHex` (dynamicSigner.ts lines 21-25). -/
def uint8ArrayToHex (bytes : List Nat) : String :=
  String.join (bytes.map byteToHex)

/-- `DynamicSigner.sign` (dynamicSigner.ts lines 74-100): resolve the
signer address; reject when the lowercased owner differs from it;
otherwise ask the wallet to sign the 0x-prefixed hex encoding of the
bytes, wrapping any wallet failure. -/
def DynamicSigner.sign (w : DynamicWallet) (cached : Option String)
    (owner : String) (value : List Nat) : Except String String :=
  match DynamicSigner.address w cached with
  | .error e => .error e
  | .ok (myAddress, _) =>
    if strToLower owner ≠ myAddress then
      .error ("Owner " ++ owner ++ " does not match wallet address " ++ myAddress)
    else
      match w.signMessage ("0x" ++ uint8ArrayToHex value) with
      | .ok signature => .ok signature
      | .error m => .error ("Failed to sign with Dynamic wallet: " ++ m)

/-! ## Recent-room list (gameApi.ts, `joinRoom`, lines 354-364) -/

/-- The localStorage recent-room update performed after a successful
join: ids already present are left where they are; a new id is pushed on
the front and the list popped from the back when it exceeds 10. -/
def updateRecentRooms (recent : List String) (hostChainId : String) : List String :=
  if hostChainId ∈ recent then recent
  else
    let r := hostChainId :: recent
    if r.length > 10 then r.dropLast else r

/-- `joinRoom` (gameApi.ts lines 354-364): mutate first; the recent-room
list is only updated when the mutation succeeds. -/
def joinRoomApi (recent : List String) (hostChainId : String)
    (mutRes : Except String Unit) : List String × Except String Unit :=
  match mutRes with
  | .error e => (recent, .error e)
  | .ok _ => (updateRecentRooms recent hostChainId, .ok ())

end ChainCycles

namespace ChainCycles

/-! ## Theorems for C5, C8, C9, C10 -/

set_option maxRecDepth 16000

/-- C5 counterexample: `leaveCurrentRoom` over a failing `leaveRoom`
mutation.  The claim says every store operation rethrows the underlying
error; `leaveCurrentRoom`'s catch block records the message but does not
rethrow, so the call resolves successfully. -/
theorem c5_leave_room_swallows_error :
    (leaveCurrentRoom (GameState.mk (some "roomX") false none true) (.error "boom")).2
        = .ok ()
      ∧ (leaveCurrentRoom (GameState.mk (some "roomX") false none true) (.error "boom")).2
        ≠ .error "boom"
      ∧ (leaveCurrentRoom (GameState.mk (some "roomX") false none true) (.error "boom")).1.error
        = some "boom"
      ∧ (leaveCurrentRoom (GameState.mk (some "roomX") false none true) (.error "boom")).1.room
        = some "roomX" := by
  refine ⟨rfl, ?_, rfl, rfl⟩
  intro h
  exact Except.noConfusion h

/-- C5 (amended): `createNewRoom` and `joinExistingRoom` surface any
underlying mutate/query error verbatim; `submitMove` rethrows a failing
move mutation, but a failure of its post-move synchronized read is
swallowed by `syncRoom`'s own catch (logged only) and `submitMove`
resolves successfully without even recording the message;
`leaveCurrentRoom` records the error message in the store and resolves
without rethrowing; in every failing case the locally stored room state
is unchanged. -/
theorem c5_store_error_propagation (s : GameState) (e hostChainId : String)
    (syncRes : Except String (Option String)) :
    ((createNewRoom s (.error e) hostChainId (.ok s.room)).2 = .error e
        ∧ (createNewRoom s (.error e) hostChainId (.ok s.room)).1.room = s.room)
      ∧ ((createNewRoom s (.ok ()) hostChainId (.error e)).2 = .error e
        ∧ (createNewRoom s (.ok ()) hostChainId (.error e)).1.room = s.room)
      ∧ ((joinExistingRoom s (.error e)).2 = .error e
        ∧ (joinExistingRoom s (.error e)).1.room = s.room
        ∧ (joinExistingRoom s (.error e)).1.pollActive = s.pollActive)
      ∧ ((submitMove s (.error e) syncRes).2 = .error e
        ∧ (submitMove s (.error e) syncRes).1.room = s.room)
      ∧ ((submitMove s (.ok ()) (.error e)).2 = .ok ()
        ∧ (submitMove s (.ok ()) (.error e)).1.room = s.room
        ∧ (submitMove s (.ok ()) (.error e)).1.error = none)
      ∧ ((leaveCurrentRoom s (.error e)).2 = .ok ()
        ∧ (leaveCurrentRoom s (.error e)).1.error = some e
        ∧ (leaveCurrentRoom s (.error e)).1.room = s.room) := by
  exact ⟨⟨rfl, rfl⟩, ⟨rfl, rfl⟩, ⟨rfl, rfl, rfl⟩, ⟨rfl, rfl⟩, ⟨rfl, rfl, rfl⟩,
    rfl, rfl, rfl⟩

/-- C8 counterexample: a wallet whose address lowercases to `0xab` and an
owner written `0xAB`.  The owner differs from the signer's `address()` as
plain strings, so the claim demands failure, yet the code lowercases the
owner before comparing and signs successfully. -/
theorem c8_uppercase_owner_still_signs :
    ("0xAB" : String) ≠ "0xab"
      ∧ DynamicSigner.address (DynamicWallet.mk "0xab" (fun _ => .ok "sig")) none
        = .ok ("0xab", some "0xab")
      ∧ DynamicSigner.sign (DynamicWallet.mk "0xab" (fun _ => .ok "sig")) none "0xAB" [1, 2]
        = .ok "sig" := by
  refine ⟨by decide, ?_, ?_⟩ <;> decide

/-- C8 (amended): with a fresh signer over a wallet with a non-empty
address, `sign(owner, bytes)` fails with the owner-mismatch error exactly
when the *lowercased* owner differs from the signer's address (the
wallet's lowercased address), and otherwise returns the wallet's
signature over the 0x-prefixed hex encoding of the bytes (wallet
failures being wrapped). -/
theorem c8_sign_owner_check (w : DynamicWallet) (owner : String)
    (value : List Nat) (ha : w.addr ≠ "") :
    (strToLower owner ≠ strToLower w.addr →
        DynamicSigner.sign w none owner value =
          .error ("Owner " ++ owner ++ " does not match wallet address " ++ strToLower w.addr))
      ∧ (strToLower owner = strToLower w.addr →
        DynamicSigner.sign w none owner value =
          match w.signMessage ("0x" ++ uint8ArrayToHex value) with
          | .ok signature => .ok signature
          | .error m => .error ("Failed to sign with Dynamic wallet: " ++ m)) := by
  constructor
  · intro hne
    simp [DynamicSigner.sign, DynamicSigner.address, ha, hne]
  · intro heq
    simp [DynamicSigner.sign, DynamicSigner.address, ha, heq]

/-- C8 witness: concrete matching and mismatching owners against a
wallet with mixed-case address `0xAb`. -/
theorem c8_sign_owner_check_witness :
    DynamicSigner.sign (DynamicWallet.mk "0xAb" (fun _ => .ok "sigX")) none "0xaB" [0, 255]
        = .ok "sigX"
      ∧ DynamicSigner.sign (DynamicWallet.mk "0xAb" (fun _ => .ok "sigX")) none "0xzz" []
        = .error "Owner 0xzz does not match wallet address 0xab" := by
  constructor
  · have h := (c8_sign_owner_check (DynamicWallet.mk "0xAb" (fun _ => .ok "sigX"))
      "0xaB" [0, 255] (by decide)).2 (by decide)
    rw [h]
  · have h := (c8_sign_owner_check (DynamicWallet.mk "0xAb" (fun _ => .ok "sigX"))
      "0xzz" [] (by decide)).1 (by decide)
    rw [h]
    decide

/-- C9 counterexample: joining `chainA`, then `chainB`, then `chainA`
again.  The claim says the most recently joined id is at the front; the
code leaves an already-present id in place, so the front is still
`chainB`. -/
theorem c9_rejoined_room_not_front :
    updateRecentRooms (updateRecentRooms (updateRecentRooms [] "chainA") "chainB") "chainA"
        = ["chainB", "chainA"]
      ∧ (updateRecentRooms (updateRecentRooms (updateRecentRooms [] "chainA") "chainB")
          "chainA").head? ≠ some "chainA" := by
  refine ⟨by decide, by decide⟩

/-- C9 (amended): starting from a de-duplicated list of at most 10 ids,
the list after a join is still de-duplicated and at most 10 long; an id
not yet present is placed at the front, while re-joining an id already
present leaves the list unchanged (in particular it is *not* moved to the
front). -/
theorem c9_recent_rooms_invariants (recent : List String) (h : String)
    (hnd : recent.Nodup) (hlen : recent.length ≤ 10) :
    (updateRecentRooms recent h).Nodup
      ∧ (updateRecentRooms recent h).length ≤ 10
      ∧ (h ∉ recent → (updateRecentRooms recent h).head? = some h)
      ∧ (h ∈ recent → updateRecentRooms recent h = recent) := by
  by_cases hmem : h ∈ recent
  · simp [updateRecentRooms, hmem, hnd, hlen]
  · have hnd' : (h :: recent).Nodup := by simp [hnd, hmem]
    by_cases hl : (h :: recent).length > 10
    · have hdrop : updateRecentRooms recent h = (h :: recent).dropLast := by
        show (if h ∈ recent then recent
          else if (h :: recent).length > 10 then (h :: recent).dropLast else h :: recent)
            = (h :: recent).dropLast
        rw [if_neg hmem, if_pos hl]
      rcases recent with _ | ⟨r, rs⟩
      · simp at hl
      · refine ⟨?_, ?_, ?_, ?_⟩
        · rw [hdrop]
          exact (List.dropLast_sublist _).nodup hnd'
        · rw [hdrop, List.length_dropLast]
          simpa using hlen
        · intro _
          rw [hdrop]
          simp [List.dropLast]
        · intro hc
          exact absurd hc hmem
    · have hcons : updateRecentRooms recent h = h :: recent := by
        show (if h ∈ recent then recent
          else if (h :: recent).length > 10 then (h :: recent).dropLast else h :: recent)
            = h :: recent
        rw [if_neg hmem, if_neg hl]
      refine ⟨?_, ?_, ?_, ?_⟩
      · rw [hcons]; exact hnd'
      · rw [hcons]; simp at hl ⊢; omega
      · intro _; rw [hcons]; rfl
      · intro hc; exact absurd hc hmem

/-- C9 witness: one fresh join in front of `["x"]` and one re-join of
`["y"]`. -/
theorem c9_recent_rooms_invariants_witness :
    (updateRecentRooms ["x"] "y").Nodup
      ∧ (updateRecentRooms ["x"] "y").length ≤ 10
      ∧ (updateRecentRooms ["x"] "y").head? = some "y"
      ∧ updateRecentRooms ["y"] "y" = ["y"] := by
  obtain ⟨a, b, c, _⟩ := c9_recent_rooms_invariants ["x"] "y" (by decide) (by decide)
  obtain ⟨_, _, _, d⟩ := c9_recent_rooms_invariants ["y"] "y" (by decide) (by decide)
  exact ⟨a, b, c (by decide), d (by decide)⟩

/-- C10: a successful re-connect for a different address replaces the
connection but leaves the cached application binding in place
(`performConnect` never writes `appConnection`): the next `query` uses
the application handle resolved under the previous session's chain,
`connectApplication` with the same application id keeps returning the
stale cache, and only `disconnect` (or a `connectApplication` with a
different application id) replaces it. -/
theorem c10_stale_binding_after_reconnect (st : Adapter) (c : LineraConnection)
    (ac : ApplicationConnection) (cid a2 asa defaultAppId aid : String)
    (_hconn : st.connection = some c) (hac : st.appConnection = some ac)
    (_haddr : a2 ≠ c.address) :
    (st.performConnectSuccess cid a2 asa).appConnection = some ac
      ∧ (st.performConnectSuccess cid a2 asa).queryBinding defaultAppId =
          .ok (ac.application, st.performConnectSuccess cid a2 asa)
      ∧ (st.performConnectSuccess cid a2 asa).connectApplication ac.applicationId =
          .ok (ac, st.performConnectSuccess cid a2 asa)
      ∧ ((st.performConnectSuccess cid a2 asa).disconnect).appConnection = none
      ∧ (aid ≠ ac.applicationId → aid ≠ "" →
          (st.performConnectSuccess cid a2 asa).connectApplication aid =
            .ok (⟨⟨cid, aid⟩, aid⟩,
              { st.performConnectSuccess cid a2 asa with
                appConnection := some ⟨⟨cid, aid⟩, aid⟩ })) := by
  refine ⟨?_, ?_, ?_, rfl, ?_⟩
  · simp [Adapter.performConnectSuccess, hac]
  · simp [Adapter.performConnectSuccess, Adapter.queryBinding, hac]
  · simp [Adapter.performConnectSuccess, Adapter.connectApplication, hac]
  · intro hne hne'
    simp [Adapter.performConnectSuccess, Adapter.connectApplication, hac,
      Ne.symm hne, hne']

/-- C10 witness: a session on `chain-0` with a cached binding for
`app-1`, re-connected as a different address onto `chain-1`. -/
theorem c10_stale_binding_after_reconnect_witness :
    ((Adapter.mk (some ⟨"chain-0", "0xaaa", "0xs"⟩)
        (some ⟨⟨"chain-0", "app-1"⟩, "app-1"⟩) []).performConnectSuccess
          "chain-1" "0xbbb" "0xt").appConnection = some ⟨⟨"chain-0", "app-1"⟩, "app-1"⟩
      ∧ ((Adapter.mk (some ⟨"chain-0", "0xaaa", "0xs"⟩)
          (some ⟨⟨"chain-0", "app-1"⟩, "app-1"⟩) []).performConnectSuccess
            "chain-1" "0xbbb" "0xt").queryBinding "app-1" =
          .ok (⟨"chain-0", "app-1"⟩,
            (Adapter.mk (some ⟨"chain-0", "0xaaa", "0xs"⟩)
              (some ⟨⟨"chain-0", "app-1"⟩, "app-1"⟩) []).performConnectSuccess
                "chain-1" "0xbbb" "0xt")
      ∧ (((Adapter.mk (some ⟨"chain-0", "0xaaa", "0xs"⟩)
          (some ⟨⟨"chain-0", "app-1"⟩, "app-1"⟩) []).performConnectSuccess
            "chain-1" "0xbbb" "0xt").connectApplication "app-2") =
          .ok (⟨⟨"chain-1", "app-2"⟩, "app-2"⟩,
            { (Adapter.mk (some ⟨"chain-0", "0xaaa", "0xs"⟩)
                (some ⟨⟨"chain-0", "app-1"⟩, "app-1"⟩) []).performConnectSuccess
                  "chain-1" "0xbbb" "0xt" with
              appConnection := some ⟨⟨"chain-1", "app-2"⟩, "app-2"⟩ }) := by
  obtain ⟨a, b, _, _, e⟩ := c10_stale_binding_after_reconnect
    (Adapter.mk (some ⟨"chain-0", "0xaaa", "0xs"⟩)
      (some ⟨⟨"chain-0", "app-1"⟩, "app-1"⟩) [])
    ⟨"chain-0", "0xaaa", "0xs"⟩ ⟨⟨"chain-0", "app-1"⟩, "app-1"⟩
    "chain-1" "0xbbb" "0xt" "app-1" "app-2" rfl rfl (by decide)
  exact ⟨a, b, e (by decide) (by decide)⟩

end ChainCycles

namespace ChainCycles

/-! ## Single-flight `connect` (lineraAdapter.ts lines 124-156, 190-272)

JavaScript is single-threaded: the synchronous prefix of `connect` — the
address check, the already-connected check, the `connectPromise` check
and, in the starting caller, the assignment
`this.connectPromise = this.performConnect(...)` — runs atomically, while
the body of `performConnect` runs later, at `await` suspension points.
The machine below has one event per atomic section: `call i` is caller
`i`'s synchronous prefix, `finish ok` is the completion of the single
in-flight `performConnect` execution (success or rejection), and
`resume i` is caller `i`'s continuation after `await this.connectPromise`
(`return this.getState()`, plus — for the starting caller — the
`finally` block clearing `connectPromise`).

`performs` counts invocations of `performConnect`; `claims` counts
`faucet.claimChain` calls (one per completed `performConnect` run). -/

inductive CallerSt
  | notStarted
  | waiting
  | done (result : Except String ConnectionState)
deriving DecidableEq, Repr

inductive JobSt
  | idle
  | pending (userAddress : String)
  | finished (ok : Bool)
deriving DecidableEq, Repr

structure ConnectSys (n : ℕ) where
  adapter : Adapter
  promiseSet : Bool
  job : JobSt
  starter : Option (Fin n)
  performs : ℕ
  claims : ℕ
  callers : Fin n → CallerSt

inductive ConnectEvent (n : ℕ)
  | call (i : Fin n)
  | finish (ok : Bool)
  | resume (i : Fin n)
deriving DecidableEq, Repr

/-- One atomic section of the interleaved execution.  `call`: the checks
and branches of `connect` (lineraAdapter.ts lines 128-148) — throw on a
missing address, return the current state when already connected for the
same lowercased address, attach to an in-flight promise, or memoize a new
`performConnect` invocation.  `finish`: the in-flight `performConnect`
settles, claiming a chain and installing the connection on success
(lines 222, 246-258) or resetting it on failure (line 269).  `resume`: an
awaiting caller observes the settled promise — `getState()` on success,
the rethrown rejection on failure — and the starting caller's `finally`
clears the memoized promise (line 154). -/
def connectStep (cid asa em : String) {n : ℕ} (A : Fin n → String)
    (s : ConnectSys n) : ConnectEvent n → ConnectSys n
  | .call i =>
    match s.callers i with
    | .notStarted =>
      if strToLower (A i) = "" then
        { s with callers :=
            Function.update s.callers i (.done (.error "Dynamic wallet has no address")) }
      else if s.adapter.connection.map (fun c => c.address) = some (strToLower (A i)) then
        { s with callers := Function.update s.callers i (.done (.ok s.adapter.getState)) }
      else if s.promiseSet then
        { s with callers := Function.update s.callers i .waiting }
      else
        { s with
            promiseSet := true
            job := .pending (strToLower (A i))
            starter := some i
            performs := s.performs + 1
            callers := Function.update s.callers i .waiting }
    | _ => s
  | .finish ok =>
    match s.job with
    | .pending ua =>
      if ok then
        { s with
            adapter := s.adapter.performConnectSuccess cid ua asa
            claims := s.claims + 1
            job := .finished true }
      else
        { s with
            adapter := s.adapter.performConnectFailure
            job := .finished false }
    | _ => s
  | .resume i =>
    match s.callers i, s.job with
    | .waiting, .finished ok =>
      let s' : ConnectSys n :=
        { s with
            callers := Function.update s.callers i
              (.done (if ok then .ok s.adapter.getState else .error em)) }
      if s.starter = some i then { s' with promiseSet := false } else s'
    | _, _ => s

/-- Run of the connect machine over an event list. -/
def runConnect (cid asa em : String) {n : ℕ} (A : Fin n → String)
    (s : ConnectSys n) : List (ConnectEvent n) → ConnectSys n
  | [] => s
  | e :: es => runConnect cid asa em A (connectStep cid asa em A s e) es

/-- The adapter singleton before any connect: no connection, no memoized
promise, no caller started. -/
def connectInit (n : ℕ) (adapter0 : Adapter) : ConnectSys n :=
  { adapter := adapter0, promiseSet := false, job := .idle, starter := none,
    performs := 0, claims := 0, callers := fun _ => .notStarted }

/-- What an awaiting caller observes from the settled attempt. -/
def connectResultOf (b : Bool) (ad : Adapter) (em : String) :
    Except String ConnectionState :=
  if b then .ok ad.getState else .error em

end ChainCycles

namespace ChainCycles

/-- Running the machine over a concatenation of event lists. -/
lemma runConnect_append (cid asa em : String) {n : ℕ} (A : Fin n → String)
    (xs ys : List (ConnectEvent n)) (s : ConnectSys n) :
    runConnect cid asa em A s (xs ++ ys)
      = runConnect cid asa em A (runConnect cid asa em A s xs) ys := by
  induction xs generalizing s with
  | nil => simp [runConnect]
  | cons e es ih => simp [runConnect, ih]

/-- Calls phase: while a connect is in flight (`promiseSet = true`) and no
connection is installed, every further `call` event merely attaches the
caller to the in-flight promise — no field other than the callers map
changes, and each caller that had not yet started becomes `waiting`. -/
lemma runConnect_calls (cid asa em : String) {n : ℕ} (A : Fin n → String)
    (hA : ∀ i, strToLower (A i) ≠ "") (L : List (Fin n)) (s : ConnectSys n)
    (hconn : s.adapter.connection = none) (hps : s.promiseSet = true) :
    runConnect cid asa em A s (L.map .call) =
      { s with callers := fun i =>
          if i ∈ L ∧ s.callers i = .notStarted then .waiting else s.callers i } := by
  induction L generalizing s with
  | nil =>
    have hcals : (fun i => if i ∈ ([] : List (Fin n)) ∧ s.callers i = CallerSt.notStarted
        then CallerSt.waiting else s.callers i) = s.callers := by
      funext i
      simp
    rw [hcals]
    rfl
  | cons hd tl ih =>
    simp only [List.map_cons, runConnect]
    cases hc : s.callers hd with
    | notStarted =>
      have hstep : connectStep cid asa em A s (.call hd) =
          { s with callers := Function.update s.callers hd .waiting } := by
        simp [connectStep, hc, hA hd, hconn, hps]
      rw [hstep,
        ih { s with callers := Function.update s.callers hd .waiting } hconn hps]
      congr 1
      funext i
      by_cases hi : i = hd
      · subst hi
        simp [Function.update_same, hc]
      · simp [Function.update_noteq hi, hi, List.mem_cons]
    | waiting =>
      have hstep : connectStep cid asa em A s (.call hd) = s := by
        simp [connectStep, hc]
      rw [hstep, ih s hconn hps]
      congr 1
      funext i
      by_cases hi : i = hd
      · subst hi
        simp [hc, List.mem_cons]
      · simp [hi, List.mem_cons]
    | done r =>
      have hstep : connectStep cid asa em A s (.call hd) = s := by
        simp [connectStep, hc]
      rw [hstep, ih s hconn hps]
      congr 1
      funext i
      by_cases hi : i = hd
      · subst hi
        simp [hc, List.mem_cons]
      · simp [hi, List.mem_cons]

end ChainCycles

namespace ChainCycles

/-- Resumes phase: once the in-flight attempt has settled, every waiting
caller that resumes observes the same settled outcome; the adapter and
the invocation counters are untouched, and by the time every waiting
caller has resumed — the starting caller among them — the memoized
promise has been cleared. -/
lemma runConnect_resumes (cid asa em : String) {n : ℕ} (A : Fin n → String)
    (R : List (Fin n)) (s : ConnectSys n) (b : Bool)
    (hjob : s.job = .finished b)
    (hcal : ∀ i, s.callers i = .waiting
      ∨ s.callers i = .done (connectResultOf b s.adapter em))
    (hcov : ∀ i, s.callers i = .waiting → i ∈ R)
    (hps : s.promiseSet = true → ∃ j, s.starter = some j ∧ s.callers j = .waiting) :
    (runConnect cid asa em A s (R.map .resume)).adapter = s.adapter
      ∧ (runConnect cid asa em A s (R.map .resume)).claims = s.claims
      ∧ (runConnect cid asa em A s (R.map .resume)).performs = s.performs
      ∧ (runConnect cid asa em A s (R.map .resume)).promiseSet = false
      ∧ ∀ i, (runConnect cid asa em A s (R.map .resume)).callers i
          = .done (connectResultOf b s.adapter em) := by
  induction R generalizing s with
  | nil =>
    refine ⟨rfl, rfl, rfl, ?_, ?_⟩
    · cases hp : s.promiseSet with
      | false => exact hp
      | true =>
        obtain ⟨j, _, hw⟩ := hps hp
        exact absurd (hcov j hw) (List.not_mem_nil j)
    · intro i
      rcases hcal i with hw | hd
      · exact absurd (hcov i hw) (List.not_mem_nil i)
      · exact hd
  | cons r R' ih =>
    simp only [List.map_cons, runConnect]
    rcases hcal r with hw | hdn
    · have hcal2 : ∀ i, (Function.update s.callers r
            (CallerSt.done (connectResultOf b s.adapter em))) i = CallerSt.waiting
          ∨ (Function.update s.callers r
            (CallerSt.done (connectResultOf b s.adapter em))) i
            = CallerSt.done (connectResultOf b s.adapter em) := by
        intro i
        by_cases hi : i = r
        · subst hi
          right
          rw [Function.update_same]
        · rw [Function.update_noteq hi]
          exact hcal i
      have hcov2 : ∀ i, (Function.update s.callers r
            (CallerSt.done (connectResultOf b s.adapter em))) i = CallerSt.waiting
          → i ∈ R' := by
        intro i hwi
        by_cases hi : i = r
        · subst hi
          rw [Function.update_same] at hwi
          exact CallerSt.noConfusion hwi
        · rw [Function.update_noteq hi] at hwi
          rcases List.mem_cons.mp (hcov i hwi) with h | h
          · exact absurd h hi
          · exact h
      by_cases hst : s.starter = some r
      · have hstep : connectStep cid asa em A s (.resume r) =
            { s with
                promiseSet := false
                callers := Function.update s.callers r
                  (CallerSt.done (connectResultOf b s.adapter em)) } := by
          simp [connectStep, hw, hjob, hst, connectResultOf]
        rw [hstep]
        exact ih
          { s with
              promiseSet := false
              callers := Function.update s.callers r
                (CallerSt.done (connectResultOf b s.adapter em)) }
          hjob hcal2 hcov2 (fun hp => Bool.noConfusion hp)
      · have hstep : connectStep cid asa em A s (.resume r) =
            { s with
                callers := Function.update s.callers r
                  (CallerSt.done (connectResultOf b s.adapter em)) } := by
          simp [connectStep, hw, hjob, hst, connectResultOf]
        rw [hstep]
        refine ih
          { s with
              callers := Function.update s.callers r
                (CallerSt.done (connectResultOf b s.adapter em)) }
          hjob hcal2 hcov2 ?_
        intro hp
        obtain ⟨j, hj, hwj⟩ := hps hp
        have hjr : j ≠ r := fun hEq => hst (hEq ▸ hj)
        refine ⟨j, hj, ?_⟩
        show Function.update s.callers r
          (CallerSt.done (connectResultOf b s.adapter em)) j = CallerSt.waiting
        rw [Function.update_noteq hjr]
        exact hwj
    · have hstep : connectStep cid asa em A s (.resume r) = s := by
        simp [connectStep, hdn]
      have hcov2 : ∀ i, s.callers i = CallerSt.waiting → i ∈ R' := by
        intro i hwi
        have hir : i ≠ r := by
          intro hEq
          rw [hEq, hdn] at hwi
          exact CallerSt.noConfusion hwi
        rcases List.mem_cons.mp (hcov i hwi) with h | h
        · exact absurd h hir
        · exact h
      rw [hstep]
      exact ih s hjob hcal hcov2 hps

end ChainCycles

namespace ChainCycles

/-- C1: for any number of callers whose `connect()` prefixes all run
before the single in-flight `performConnect` settles, exactly one
`performConnect` (and hence exactly one partition claim) happens —
every later caller attaches to the memoized promise; once the attempt
settles and every caller resumes, all callers observe the same session
identity on success (or the same rejection on failure), and the memoized
promise has been cleared by the starting caller's `finally`, leaving a
failed attempt free to retry cleanly. -/
theorem c1_connect_single_flight (n : ℕ) (A : Fin n → String)
    (adapter0 : Adapter) (cid asa em : String) (j : Fin n)
    (L R : List (Fin n)) (b : Bool)
    (hconn : adapter0.connection = none)
    (hA : ∀ i, strToLower (A i) ≠ "")
    (hcall : ∀ i : Fin n, i ∈ j :: L)
    (hres : ∀ i : Fin n, i ∈ R) :
    ∀ F, F = runConnect cid asa em A (connectInit n adapter0)
        (List.map ConnectEvent.call (j :: L)
          ++ ConnectEvent.finish b :: List.map ConnectEvent.resume R) →
      F.performs = 1
        ∧ F.promiseSet = false
        ∧ (b = true →
            F.claims = 1
              ∧ F.adapter.connection = some ⟨cid, strToLower (A j), asa⟩
              ∧ ∀ i, F.callers i = .done (.ok
                  ⟨true, some cid, some (strToLower (A j)), some asa⟩))
        ∧ (b = false →
            F.adapter.connection = none
              ∧ ∀ i, F.callers i = .done (.error em)) := by
  intro F hF
  have h1 : connectStep cid asa em A (connectInit n adapter0) (.call j)
      = ⟨adapter0, true, .pending (strToLower (A j)), some j, 1, 0,
          Function.update (fun _ => CallerSt.notStarted) j CallerSt.waiting⟩ := by
    simp [connectStep, connectInit, hconn, hA j]
  have htrace : List.map ConnectEvent.call (j :: L)
        ++ ConnectEvent.finish b :: List.map ConnectEvent.resume R
      = ConnectEvent.call j :: (List.map ConnectEvent.call L
          ++ ConnectEvent.finish b :: List.map ConnectEvent.resume R) := by
    simp
  have hF2 : F = runConnect cid asa em A
      (⟨adapter0, true, .pending (strToLower (A j)), some j, 1, 0,
          Function.update (fun _ => CallerSt.notStarted) j CallerSt.waiting⟩ : ConnectSys n)
      (List.map ConnectEvent.call L
        ++ ConnectEvent.finish b :: List.map ConnectEvent.resume R) := by
    rw [hF, htrace]
    show runConnect cid asa em A
        (connectStep cid asa em A (connectInit n adapter0) (.call j)) _ = _
    rw [h1]
  have h2 := runConnect_calls cid asa em A hA L
    (⟨adapter0, true, .pending (strToLower (A j)), some j, 1, 0,
        Function.update (fun _ => CallerSt.notStarted) j CallerSt.waiting⟩ : ConnectSys n)
    hconn rfl
  have hwait : ∀ i : Fin n,
      (if i ∈ L ∧ Function.update (fun _ : Fin n => CallerSt.notStarted) j
            CallerSt.waiting i = CallerSt.notStarted
        then CallerSt.waiting
        else Function.update (fun _ : Fin n => CallerSt.notStarted) j CallerSt.waiting i)
        = CallerSt.waiting := by
    intro i
    by_cases hij : i = j
    · subst hij
      simp
    · have hni : Function.update (fun _ : Fin n => CallerSt.notStarted) j CallerSt.waiting i
          = CallerSt.notStarted := by
        rw [Function.update_noteq hij]
      rcases List.mem_cons.mp (hcall i) with h | h
      · exact absurd h hij
      · simp [hni, h]
  have hF3 : F = runConnect cid asa em A
      (⟨adapter0, true, .pending (strToLower (A j)), some j, 1, 0,
          fun i => if i ∈ L ∧ Function.update (fun _ : Fin n => CallerSt.notStarted) j
                CallerSt.waiting i = CallerSt.notStarted
            then CallerSt.waiting
            else Function.update (fun _ : Fin n => CallerSt.notStarted) j
              CallerSt.waiting i⟩ : ConnectSys n)
      (ConnectEvent.finish b :: List.map ConnectEvent.resume R) := by
    rw [hF2, runConnect_append, h2]
  cases b with
  | true =>
    have hF4 : F = runConnect cid asa em A
        (⟨Adapter.performConnectSuccess adapter0 cid (strToLower (A j)) asa, true,
            .finished true, some j, 1, 1,
            fun i => if i ∈ L ∧ Function.update (fun _ : Fin n => CallerSt.notStarted) j
                  CallerSt.waiting i = CallerSt.notStarted
              then CallerSt.waiting
              else Function.update (fun _ : Fin n => CallerSt.notStarted) j
                CallerSt.waiting i⟩ : ConnectSys n)
        (List.map ConnectEvent.resume R) := by
      rw [hF3]
      rfl
    obtain ⟨hfa, hfc, hfp, hfps, hfcal⟩ := runConnect_resumes cid asa em A R
      (⟨Adapter.performConnectSuccess adapter0 cid (strToLower (A j)) asa, true,
          .finished true, some j, 1, 1,
          fun i => if i ∈ L ∧ Function.update (fun _ : Fin n => CallerSt.notStarted) j
                CallerSt.waiting i = CallerSt.notStarted
            then CallerSt.waiting
            else Function.update (fun _ : Fin n => CallerSt.notStarted) j
              CallerSt.waiting i⟩ : ConnectSys n)
      true rfl (fun i => Or.inl (hwait i)) (fun i _ => hres i)
      (fun _ => ⟨j, rfl, hwait j⟩)
    refine ⟨?_, ?_, ?_, ?_⟩
    · rw [hF4]
      exact hfp
    · rw [hF4]
      exact hfps
    · intro _
      refine ⟨?_, ?_, ?_⟩
      · rw [hF4, hfc]
      · rw [hF4, hfa]
        rfl
      · intro i
        rw [hF4]
        exact hfcal i
    · intro hb
      exact absurd hb (by simp)
  | false =>
    have hF4 : F = runConnect cid asa em A
        (⟨Adapter.performConnectFailure adapter0, true,
            .finished false, some j, 1, 0,
            fun i => if i ∈ L ∧ Function.update (fun _ : Fin n => CallerSt.notStarted) j
                  CallerSt.waiting i = CallerSt.notStarted
              then CallerSt.waiting
              else Function.update (fun _ : Fin n => CallerSt.notStarted) j
                CallerSt.waiting i⟩ : ConnectSys n)
        (List.map ConnectEvent.resume R) := by
      rw [hF3]
      rfl
    obtain ⟨hfa, hfc, hfp, hfps, hfcal⟩ := runConnect_resumes cid asa em A R
      (⟨Adapter.performConnectFailure adapter0, true,
          .finished false, some j, 1, 0,
          fun i => if i ∈ L ∧ Function.update (fun _ : Fin n => CallerSt.notStarted) j
                CallerSt.waiting i = CallerSt.notStarted
            then CallerSt.waiting
            else Function.update (fun _ : Fin n => CallerSt.notStarted) j
              CallerSt.waiting i⟩ : ConnectSys n)
      false rfl (fun i => Or.inl (hwait i)) (fun i _ => hres i)
      (fun _ => ⟨j, rfl, hwait j⟩)
    refine ⟨?_, ?_, ?_, ?_⟩
    · rw [hF4]
      exact hfp
    · rw [hF4]
      exact hfps
    · intro hb
      exact absurd hb (by simp)
    · intro _
      refine ⟨?_, ?_⟩
      · rw [hF4, hfa]
        rfl
      · intro i
        rw [hF4]
        exact hfcal i

end ChainCycles

namespace ChainCycles

/-- C1 witness: two concurrent callers (`0xAB` starting, `0xCD` attaching)
over a successful attempt claiming `chain-1`; both resolve to the same
session identity and exactly one `performConnect`/claim happened. -/
theorem c1_connect_single_flight_witness :
    (runConnect "chain-1" "0xauto" "boom"
        (fun i : Fin 2 => if i = 0 then "0xAB" else "0xCD")
        (connectInit 2 (Adapter.mk none none []))
        (List.map ConnectEvent.call [0, 1]
          ++ ConnectEvent.finish true :: List.map ConnectEvent.resume [1, 0])).performs = 1
      ∧ (runConnect "chain-1" "0xauto" "boom"
          (fun i : Fin 2 => if i = 0 then "0xAB" else "0xCD")
          (connectInit 2 (Adapter.mk none none []))
          (List.map ConnectEvent.call [0, 1]
            ++ ConnectEvent.finish true :: List.map ConnectEvent.resume [1, 0])).promiseSet = false
      ∧ (runConnect "chain-1" "0xauto" "boom"
          (fun i : Fin 2 => if i = 0 then "0xAB" else "0xCD")
          (connectInit 2 (Adapter.mk none none []))
          (List.map ConnectEvent.call [0, 1]
            ++ ConnectEvent.finish true :: List.map ConnectEvent.resume [1, 0])).claims = 1
      ∧ (runConnect "chain-1" "0xauto" "boom"
          (fun i : Fin 2 => if i = 0 then "0xAB" else "0xCD")
          (connectInit 2 (Adapter.mk none none []))
          (List.map ConnectEvent.call [0, 1]
            ++ ConnectEvent.finish true :: List.map ConnectEvent.resume [1, 0])).adapter.connection
        = some ⟨"chain-1", "0xab", "0xauto"⟩
      ∧ ∀ i : Fin 2, (runConnect "chain-1" "0xauto" "boom"
          (fun i' : Fin 2 => if i' = 0 then "0xAB" else "0xCD")
          (connectInit 2 (Adapter.mk none none []))
          (List.map ConnectEvent.call [0, 1]
            ++ ConnectEvent.finish true :: List.map ConnectEvent.resume [1, 0])).callers i
        = .done (.ok ⟨true, some "chain-1", some "0xab", some "0xauto"⟩) := by
  obtain ⟨p1, p2, p3, _⟩ := c1_connect_single_flight 2
    (fun i : Fin 2 => if i = 0 then "0xAB" else "0xCD")
    (Adapter.mk none none []) "chain-1" "0xauto" "boom" 0 [1] [1, 0] true
    rfl (by decide) (by decide) (by decide)
    (runConnect "chain-1" "0xauto" "boom"
      (fun i : Fin 2 => if i = 0 then "0xAB" else "0xCD")
      (connectInit 2 (Adapter.mk none none []))
      (List.map ConnectEvent.call [0, 1]
        ++ ConnectEvent.finish true :: List.map ConnectEvent.resume [1, 0]))
    rfl
  obtain ⟨q1, q2, q3⟩ := p3 rfl
  refine ⟨p1, p2, q1, ?_, ?_⟩
  · rw [q2]
    decide
  · intro i
    rw [q3 i]
    decide

end ChainCycles
